import Mathlib

/-!
Shallow embedding of the Raft storage adapter in
`src/meilisearch-http/src/raft/store.rs` (struct `RaftStore` and its
`RaftStorage` implementation), together with theorems checking the
specification's claims about it.

The heed environment (one ordered `logs` database keyed by `u64` plus the
string-keyed `meta` poly-database) is modelled as a record of slots, with the
log as an association list ordered by key.  Filesystem effects (snapshot tar
files, database swap) are outside the model; the metadata written about them
(paths, descriptors) is kept.
-/

namespace MeiliRaft

/-- `async_raft::storage::HardState`: `{current_term, voted_for}`. -/
structure HardState where
  current_term : Nat
  voted_for : Option Nat
  deriving DecidableEq, Repr

/-- `async_raft::raft::MembershipConfig`. -/
structure MembershipConfig where
  members : List Nat
  members_after_consensus : Option (List Nat)
  deriving DecidableEq, Repr

/-- Modelled from the spec: `MembershipConfig::new_initial(id)` of the
consensus runtime, "a single-node initial configuration" whose member set is
`{self}`. -/
def MembershipConfig.new_initial (id : Nat) : MembershipConfig :=
  ⟨[id], none⟩

/-- Placeholder for `meilisearch_http::routes::IndexCreateRequest`-like index
info; the adapter never inspects it. -/
structure IndexInfo where
  uid : Option String
  deriving DecidableEq, Repr

/-- Placeholder for the index metadata returned by the store on index
creation / update. -/
structure IndexMetadata where
  uid : String
  deriving DecidableEq, Repr

/-- A parsed document (`IndexMap<String, Value>` in the source), kept
abstract as a key/value list. -/
abbrev Document := List (String × String)

/-- `Message`: the command variants the application accepts (defined in the
raft module next to the store; the adapter matches on all of them in
`apply_message`). Payload types the adapter never inspects are strings. -/
inductive Message where
  | CreateIndex (info : IndexInfo)
  | DocumentAddition (update_query : String) (index_uid : String)
      (documents : String) (fieldMerge : Bool)
  | UpdateIndex (index_uid : String) (update : String)
  | DeleteIndex (index_uid : String)
  | SettingsUpdate (index_uid : String) (update : String)
  | DocumentsDeletion (index_uid : String) (ids : List String)
  | ClearAllDocuments (index_uid : String)
  deriving DecidableEq, Repr

/-- `ClientRequest { serial: u64, message: Message }`. -/
structure ClientRequest where
  serial : Nat
  message : Message
  deriving DecidableEq, Repr

deriving instance DecidableEq for Except

/-- `ClientResponse`: the response variants produced by `apply_message`;
each failure arm carries a stringified error. -/
inductive ClientResponse where
  | IndexUpdate (r : Except String IndexMetadata)
  | UpdateResponse (r : Except String Nat)
  | DeleteIndex (r : Except String Unit)
  deriving DecidableEq, Repr

/-- `async_raft::raft::EntryPayload<ClientRequest>`. -/
inductive EntryPayload where
  | Blank
  | Normal (data : ClientRequest)
  | ConfigChange (membership : MembershipConfig)
  | SnapshotPointer (id : String) (membership : MembershipConfig)
  deriving DecidableEq, Repr

/-- `async_raft::raft::Entry<ClientRequest>`. -/
structure Entry where
  term : Nat
  index : Nat
  payload : EntryPayload
  deriving DecidableEq, Repr

/-- Modelled from the spec: `Entry::new_snapshot_pointer(index, term, id,
membership)` of the consensus runtime builds "a synthetic snapshot-pointer
log entry at `through` carrying (term, snapshot_id, membership)". -/
def Entry.new_snapshot_pointer (index term : Nat) (id : String)
    (membership : MembershipConfig) : Entry :=
  ⟨term, index, .SnapshotPointer id membership⟩

/-- `RaftSnapshot` (the Snapshot Descriptor persisted under
`snapshot_path`). -/
structure RaftSnapshot where
  path : String
  id : String
  index : Nat
  term : Nat
  membership : MembershipConfig
  deriving DecidableEq, Repr

/-- The embedded search database (`Data`): each operation the adapter calls,
returning its application-level result with the error already stringified
(the adapter applies `map_err(|e| e.to_string())` / matches on the error). -/
structure Data where
  create_index : IndexInfo → Except String IndexMetadata
  update_index : String → String → Except String IndexMetadata
  delete_index : String → Except String Unit
  update_multiple_documents :
    String → String → List Document → Bool → Except String Nat
  delete_documents : String → List String → Except String Nat
  clear_all_documents : String → Except String Nat
  update_settings : String → String → Except String Nat

/-- The `logs` heed database: an association list ordered by `u64` key. -/
abbrev Logs := List (Nat × Entry)

/-- `logs.get(txn, &k)`. -/
def logsGet : Logs → Nat → Option Entry
  | [], _ => none
  | (k', v) :: t, k => if k = k' then some v else logsGet t k

/-- `logs.put(txn, &k, v)`: ordered insert, replacing an existing entry at
the same key. -/
def logsPut : Logs → Nat → Entry → Logs
  | [], k, v => [(k, v)]
  | (k', v') :: t, k, v =>
    if k < k' then (k, v) :: (k', v') :: t
    else if k = k' then (k, v) :: t
    else (k', v') :: logsPut t k v

/-- `logs.delete_range(txn, &(..=through))` — the inclusive-range delete
used by compaction. -/
def logsDeleteToIncl (l : Logs) (through : Nat) : Logs :=
  l.filter fun q => decide (through < q.1)

/-- `logs.delete_range(txn, &(start..stop))` — half-open. -/
def logsDeleteHalfOpen (l : Logs) (start stop : Nat) : Logs :=
  l.filter fun q => decide (q.1 < start ∨ stop ≤ q.1)

/-- `logs.delete_range(txn, &(start..))`. -/
def logsDeleteFrom (l : Logs) (start : Nat) : Logs :=
  l.filter fun q => decide (q.1 < start)

/-- `logs.last(txn)`: the greatest-key binding of the ordered database,
i.e. the final element of the ordered association list. -/
def logsLast (l : Logs) : Option (Nat × Entry) :=
  l.getLast?

/-- The persistent heed state of a `RaftStore` (the `logs` database and the
string-keyed `meta` slots), together with the in-process `next_serial`
atomic counter. -/
structure RaftStoreState where
  logs : Logs
  hard_state : Option HardState
  last_applied : Option Nat
  membership : Option MembershipConfig
  snapshot : Option RaftSnapshot
  next_serial : Nat
  deriving DecidableEq, Repr

/-- `RaftStore::new` initializes the `next_serial` counter with
`AtomicU64::new(0)`. -/
def RaftStore.new_next_serial : Nat := 0

/-- `ERR_INCONSISTENT_LOG`. -/
def ERR_INCONSISTENT_LOG : String :=
  "a query was received which was expecting data to be in place which does not exist in the log"

/-- `snapshot_path_from_id`: `snapshot_dir.join(format!("{}.snap", id))`. -/
def snapshot_path_from_id (dir id : String) : String :=
  dir ++ "/" ++ id ++ ".snap"

/-- `put_log`: records the latest membership config when the payload is a
`ConfigChange`, then writes the entry at `index`. -/
def put_log (s : RaftStoreState) (index : Nat) (e : Entry) : RaftStoreState :=
  let s' :=
    match e.payload with
    | .ConfigChange cfg => { s with membership := some cfg }
    | _ => s
  { s' with logs := logsPut s'.logs index e }

/-- `generate_snapshot_id`: `fetch_add(1)` on `next_serial` and format
`snapshot-<n>`. -/
def generate_snapshot_id (s : RaftStoreState) : String × RaftStoreState :=
  ("snapshot-" ++ toString s.next_serial, { s with next_serial := s.next_serial + 1 })

/-- `apply_message`: dispatch a committed command to the embedded store.
`parse` is `serde_json::from_str` on the document batch text; its failure is
the only `?`-propagated (storage-level) error. -/
def apply_message (store : Data) (parse : String → Except String (List Document)) :
    Message → Except String ClientResponse
  | .CreateIndex info => .ok (.IndexUpdate (store.create_index info))
  | .DocumentAddition update_query index_uid documents fieldMerge =>
    match parse documents with
    | .error e => .error e
    | .ok docs =>
      match store.update_multiple_documents index_uid update_query docs fieldMerge with
      | .ok r => .ok (.UpdateResponse (.ok r))
      | .error r => .ok (.UpdateResponse (.error r))
  | .UpdateIndex index_uid update => .ok (.IndexUpdate (store.update_index index_uid update))
  | .DeleteIndex index_uid => .ok (.DeleteIndex (store.delete_index index_uid))
  | .SettingsUpdate index_uid update =>
    .ok (.UpdateResponse (store.update_settings index_uid update))
  | .DocumentsDeletion index_uid ids =>
    .ok (.UpdateResponse (store.delete_documents index_uid ids))
  | .ClearAllDocuments index_uid =>
    .ok (.UpdateResponse (store.clear_all_documents index_uid))

/-- `create_snapshot_and_compact(through)`: read the term at `through`
(failing with `ERR_INCONSISTENT_LOG` if absent), allocate a snapshot id,
read the membership (or initial default), delete every entry with index
`<= through`, insert the snapshot-pointer entry at `through`, and store the
new Snapshot Descriptor.  The tar-file write and rename are filesystem
effects outside the model; the resulting path is kept. -/
def create_snapshot_and_compact (nid : Nat) (dir : String) (s : RaftStoreState)
    (through : Nat) : Except String (RaftStoreState × RaftSnapshot) :=
  match logsGet s.logs through with
  | none => .error ERR_INCONSISTENT_LOG
  | some old =>
    let term := old.term
    let (snapshot_id, s1) := generate_snapshot_id s
    let membership_config := s1.membership.getD (MembershipConfig.new_initial nid)
    let snapshot_path := snapshot_path_from_id dir snapshot_id
    let entry := Entry.new_snapshot_pointer through term snapshot_id membership_config
    let s2 := { s1 with logs := logsDeleteToIncl s1.logs through }
    let s3 := put_log s2 through entry
    let raft_snapshot : RaftSnapshot :=
      ⟨snapshot_path, snapshot_id, through, term, membership_config⟩
    .ok ({ s3 with snapshot := some raft_snapshot }, raft_snapshot)

/-- `get_membership_config`: the stored membership or the initial
single-node default. -/
def get_membership_config (nid : Nat) (s : RaftStoreState) : MembershipConfig :=
  s.membership.getD (MembershipConfig.new_initial nid)

/-- `InitialState` returned by `get_initial_state`. -/
structure InitialState where
  last_log_index : Nat
  last_log_term : Nat
  last_applied_log : Nat
  hard_state : HardState
  membership : MembershipConfig
  deriving DecidableEq, Repr

/-- Modelled from the spec: `InitialState::new_initial(id)` of the consensus
runtime, "{last_log_index:0, last_log_term:0, last_applied:0,
hard_state:{term:0, voted_for:None}, membership:{members:{self}}}". -/
def InitialState.new_initial (nid : Nat) : InitialState :=
  ⟨0, 0, 0, ⟨0, none⟩, MembershipConfig.new_initial nid⟩

/-- `get_initial_state`: bootstrap read; synthesizes and persists an initial
hard state when none is stored, otherwise derives `last_log_(index|term)`
from the log's final entry. -/
def get_initial_state (nid : Nat) (s : RaftStoreState) :
    InitialState × RaftStoreState :=
  let membership := get_membership_config nid s
  let last_applied_log := (s.last_applied).getD 0
  match s.hard_state with
  | some inner =>
    let p :=
      match logsLast s.logs with
      | some (_, entry) => (entry.index, entry.term)
      | none => (0, 0)
    (⟨p.1, p.2, last_applied_log, inner, membership⟩, s)
  | none =>
    let new := InitialState.new_initial nid
    (new, { s with hard_state := some new.hard_state })

/-- `save_hard_state`. -/
def save_hard_state (s : RaftStoreState) (hs : HardState) : RaftStoreState :=
  { s with hard_state := some hs }

/-- `get_log_entries(start, stop)`: single lookup when `start == stop`, else
the inclusive range scan. -/
def get_log_entries (s : RaftStoreState) (start stop : Nat) : List Entry :=
  if start = stop then
    match logsGet s.logs start with
    | some e => [e]
    | none => []
  else
    (s.logs.filter fun q => decide (start ≤ q.1 ∧ q.1 ≤ stop)).map (·.2)

/-- `delete_logs_from(start, stop)`: half-open `[start, stop)` when `stop`
is given, else `[start, ∞)`. -/
def delete_logs_from (s : RaftStoreState) (start : Nat) (stop : Option Nat) :
    RaftStoreState :=
  match stop with
  | some stop => { s with logs := logsDeleteHalfOpen s.logs start stop }
  | none => { s with logs := logsDeleteFrom s.logs start }

/-- `append_entry_to_log`. -/
def append_entry_to_log (s : RaftStoreState) (e : Entry) : RaftStoreState :=
  put_log s e.index e

/-- `replicate_to_log`. -/
def replicate_to_log (s : RaftStoreState) (entries : List Entry) : RaftStoreState :=
  entries.foldl (fun acc e => put_log acc e.index e) s

/-- `apply_entry_to_state_machine`: store the request serial in
`next_serial`, apply the message (propagating its storage-level failure),
and record `index` as the last-applied watermark. -/
def apply_entry_to_state_machine (store : Data)
    (parse : String → Except String (List Document)) (s : RaftStoreState)
    (index : Nat) (data : ClientRequest) :
    Except String (RaftStoreState × ClientResponse) :=
  let s1 := { s with next_serial := data.serial }
  match apply_message store parse data.message with
  | .error e => .error e
  | .ok response => .ok ({ s1 with last_applied := some index }, response)

/-- `finalize_snapshot_installation(index, term, delete_through, id, _)`:
truncate `[0, delete_through)` (or clear the log), read the membership (or
initial default), insert the snapshot-pointer entry at `index`, and store
the new Snapshot Descriptor.  Unpacking the artifact and swapping the
application database are effects outside the model. -/
def finalize_snapshot_installation (nid : Nat) (dir : String) (s : RaftStoreState)
    (index term : Nat) (delete_through : Option Nat) (id : String) :
    RaftStoreState :=
  let s1 :=
    match delete_through with
    | some d => { s with logs := logsDeleteHalfOpen s.logs 0 d }
    | none => { s with logs := ([] : Logs) }
  let membership_config := s1.membership.getD (MembershipConfig.new_initial nid)
  let entry := Entry.new_snapshot_pointer index term id membership_config
  let s2 := put_log s1 index entry
  let raft_snapshot : RaftSnapshot :=
    ⟨snapshot_path_from_id dir id, id, index, term, membership_config⟩
  { s2 with snapshot := some raft_snapshot }

/-! ## Helper lemmas about the log model -/

theorem logsGet_logsPut_self (l : Logs) (k : Nat) (v : Entry) :
    logsGet (logsPut l k v) k = some v := by
  induction l with
  | nil => simp [logsPut, logsGet]
  | cons hd t ih =>
    obtain ⟨k0, v0⟩ := hd
    by_cases h1 : k < k0
    · simp [logsPut, h1, logsGet]
    · by_cases h2 : k = k0
      · simp [logsPut, h1, h2, logsGet]
      · simp [logsPut, h1, h2, logsGet, ih]

theorem logsGet_logsPut_ne (l : Logs) (k k' : Nat) (v : Entry) (h : k' ≠ k) :
    logsGet (logsPut l k v) k' = logsGet l k' := by
  induction l with
  | nil => simp [logsPut, logsGet, h]
  | cons hd t ih =>
    obtain ⟨k0, v0⟩ := hd
    by_cases h1 : k < k0
    · simp [logsPut, h1, logsGet, h]
    · by_cases h2 : k = k0
      · subst h2
        simp [logsPut, h1, logsGet, h]
      · simp [logsPut, h1, h2, logsGet, ih]

theorem logsGet_filter (p : Nat → Bool) (l : Logs) (k : Nat) :
    logsGet (l.filter fun q => p q.1) k = if p k then logsGet l k else none := by
  induction l with
  | nil => simp [logsGet]
  | cons hd t ih =>
    obtain ⟨k0, v0⟩ := hd
    by_cases hp : p k0 = true
    · by_cases hk : k = k0
      · subst hk
        simp [List.filter_cons, hp, logsGet]
      · simp [List.filter_cons, hp, logsGet, hk, ih]
    · by_cases hk : k = k0
      · subst hk
        simp [List.filter_cons, hp, logsGet, ih]
      · simp [List.filter_cons, hp, logsGet, hk, ih]

theorem logsGet_logsDeleteHalfOpen (l : Logs) (start stop k : Nat) :
    logsGet (logsDeleteHalfOpen l start stop) k =
      if start ≤ k ∧ k < stop then none else logsGet l k := by
  have h := logsGet_filter (fun x => decide (x < start ∨ stop ≤ x)) l k
  simp only [logsDeleteHalfOpen]
  by_cases hc : start ≤ k ∧ k < stop
  · have hn : ¬(k < start ∨ stop ≤ k) := by omega
    simpa [hn, hc] using h
  · have hn : k < start ∨ stop ≤ k := by omega
    simpa [hn, hc] using h

theorem logsGet_logsDeleteFrom (l : Logs) (start k : Nat) :
    logsGet (logsDeleteFrom l start) k =
      if start ≤ k then none else logsGet l k := by
  have h := logsGet_filter (fun x => decide (x < start)) l k
  simp only [logsDeleteFrom]
  by_cases hc : start ≤ k
  · have hn : ¬(k < start) := by omega
    simpa [hn, hc] using h
  · have hn : k < start := by omega
    simpa [hn, hc] using h

theorem logsGet_logsDeleteToIncl (l : Logs) (through k : Nat) :
    logsGet (logsDeleteToIncl l through) k =
      if k ≤ through then none else logsGet l k := by
  have h := logsGet_filter (fun x => decide (through < x)) l k
  simp only [logsDeleteToIncl]
  by_cases hc : k ≤ through
  · have hn : ¬(through < k) := by omega
    simpa [hn, hc] using h
  · have hn : through < k := by omega
    simpa [hn, hc] using h

theorem countP_logsPut (l : Logs) (k : Nat) (v : Entry)
    (h : l.countP (fun q => decide (q.1 = k)) = 0) :
    (logsPut l k v).countP (fun q => decide (q.1 = k)) = 1 := by
  induction l with
  | nil => simp [logsPut]
  | cons hd t ih =>
    obtain ⟨k0, v0⟩ := hd
    rw [List.countP_cons] at h
    by_cases h2 : k0 = k
    · exfalso
      subst h2
      simp at h
    · have ht : t.countP (fun q => decide (q.1 = k)) = 0 := by
        simpa [h2] using h
      by_cases h1 : k < k0
      · simp [logsPut, if_pos h1, List.countP_cons, h2, ht]
      · have h2' : ¬(k = k0) := fun hc => h2 hc.symm
        simp only [logsPut, if_neg h1, if_neg h2', List.countP_cons]
        simp [ih ht, h2]

theorem put_log_logs (s : RaftStoreState) (i : Nat) (e : Entry) :
    (put_log s i e).logs = logsPut s.logs i e := by
  obtain ⟨et, ei, ep⟩ := e
  cases ep <;> rfl

theorem put_log_membership (s : RaftStoreState) (i : Nat) (e : Entry) :
    (put_log s i e).membership =
      (match e.payload with
       | .ConfigChange cfg => some cfg
       | _ => s.membership) := by
  obtain ⟨et, ei, ep⟩ := e
  cases ep <;> rfl

theorem put_log_hard_state (s : RaftStoreState) (i : Nat) (e : Entry) :
    (put_log s i e).hard_state = s.hard_state := by
  obtain ⟨et, ei, ep⟩ := e
  cases ep <;> rfl

theorem put_log_last_applied (s : RaftStoreState) (i : Nat) (e : Entry) :
    (put_log s i e).last_applied = s.last_applied := by
  obtain ⟨et, ei, ep⟩ := e
  cases ep <;> rfl

theorem put_log_snapshot (s : RaftStoreState) (i : Nat) (e : Entry) :
    (put_log s i e).snapshot = s.snapshot := by
  obtain ⟨et, ei, ep⟩ := e
  cases ep <;> rfl

/-! ## Sample inputs used by witnesses and counterexamples -/

/-- A sample store whose index creation succeeds and whose other operations
report application-level failures. -/
def sampleStore : Data :=
  ⟨fun _ => .ok ⟨"idx"⟩, fun _ _ => .error "unused", fun _ => .error "unused",
   fun _ _ _ _ => .error "unused", fun _ _ => .error "unused",
   fun _ => .error "unused", fun _ _ => .error "unused"⟩

/-- A sample document-batch parser failing on every input. -/
def sampleParse : String → Except String (List Document) :=
  fun _ => .error "parse"

/-- A sample document-batch parser succeeding on every input. -/
def sampleParseOk : String → Except String (List Document) :=
  fun _ => .ok []

def sampleEntry (i t : Nat) : Entry := ⟨t, i, .Blank⟩

def sampleLogState : RaftStoreState :=
  ⟨[(1, sampleEntry 1 1), (2, sampleEntry 2 1), (3, sampleEntry 3 2)],
   none, none, none, none, 0⟩

/-! ## Claim theorems -/

/-- C10: `save_hard_state(hs)` modifies only the hard-state metadata slot:
every log entry and the membership, last-applied, and snapshot-descriptor
slots are unchanged after it returns. -/
theorem save_hard_state_frame (s : RaftStoreState) (hs : HardState) :
    (save_hard_state s hs).hard_state = some hs ∧
    (save_hard_state s hs).logs = s.logs ∧
    (∀ k, logsGet (save_hard_state s hs).logs k = logsGet s.logs k) ∧
    (save_hard_state s hs).membership = s.membership ∧
    (save_hard_state s hs).last_applied = s.last_applied ∧
    (save_hard_state s hs).snapshot = s.snapshot :=
  ⟨rfl, rfl, fun _ => rfl, rfl, rfl, rfl⟩

/-- C6: `delete_logs_from(start, Some(stop))` deletes exactly the entries
with index in the half-open interval `[start, stop)`,
`delete_logs_from(start, None)` deletes exactly those with index
`>= start`, all other entries and all metadata slots are unchanged, and the
delete used by compaction is instead the inclusive range `<= through`. -/
theorem delete_logs_from_spec (s : RaftStoreState) (start stop k through : Nat)
    (stopOpt : Option Nat) (l : Logs) :
    (logsGet (delete_logs_from s start (some stop)).logs k =
       if start ≤ k ∧ k < stop then none else logsGet s.logs k) ∧
    (logsGet (delete_logs_from s start none).logs k =
       if start ≤ k then none else logsGet s.logs k) ∧
    ((delete_logs_from s start stopOpt).hard_state = s.hard_state ∧
     (delete_logs_from s start stopOpt).membership = s.membership ∧
     (delete_logs_from s start stopOpt).last_applied = s.last_applied ∧
     (delete_logs_from s start stopOpt).snapshot = s.snapshot) ∧
    (logsGet (logsDeleteToIncl l through) k =
       if k ≤ through then none else logsGet l k) := by
  refine ⟨?_, ?_, ?_, ?_⟩
  · exact logsGet_logsDeleteHalfOpen s.logs start stop k
  · exact logsGet_logsDeleteFrom s.logs start k
  · cases stopOpt <;> exact ⟨rfl, rfl, rfl, rfl⟩
  · exact logsGet_logsDeleteToIncl l through k

/-- C5: `apply_message` returns application-level rejections inside a
successful `Ok(Response)` whose failure arm is the stringified error, and it
returns a top-level (storage) failure exactly when the command payload
fails to deserialize — for `DocumentAddition`, when the document batch text
fails to parse as JSON. -/
theorem apply_message_spec (store : Data)
    (parse : String → Except String (List Document)) (m : Message) :
    ((∃ err, apply_message store parse m = .error err) ↔
      (∃ uq uid docs pm e, m = .DocumentAddition uq uid docs pm ∧
        parse docs = .error e)) ∧
    (∀ uq uid docs pm ds, parse docs = .ok ds →
      apply_message store parse (.DocumentAddition uq uid docs pm) =
        .ok (.UpdateResponse (store.update_multiple_documents uid uq ds pm))) := by
  refine ⟨⟨?_, ?_⟩, ?_⟩
  · rintro ⟨err, herr⟩
    cases m with
    | CreateIndex info => simp [apply_message] at herr
    | DocumentAddition uq uid docs pm =>
      cases hp : parse docs with
      | error e => exact ⟨uq, uid, docs, pm, e, rfl, hp⟩
      | ok ds =>
        exfalso
        cases hu : store.update_multiple_documents uid uq ds pm <;>
          simp [apply_message, hp, hu] at herr
    | UpdateIndex index_uid update => simp [apply_message] at herr
    | DeleteIndex index_uid => simp [apply_message] at herr
    | SettingsUpdate index_uid update => simp [apply_message] at herr
    | DocumentsDeletion index_uid ids => simp [apply_message] at herr
    | ClearAllDocuments index_uid => simp [apply_message] at herr
  · rintro ⟨uq, uid, docs, pm, e, rfl, hp⟩
    exact ⟨e, by simp [apply_message, hp]⟩
  · intro uq uid docs pm ds hp
    cases hu : store.update_multiple_documents uid uq ds pm <;>
      simp [apply_message, hp, hu]

/-- C5 witness: on a concrete store and parser, `DocumentAddition` with an
unparseable batch is the storage-level failure, and with a parseable batch
the application result is wrapped in `Ok`. -/
theorem apply_message_spec_witness :
    ((∃ err, apply_message sampleStore sampleParse
        (.DocumentAddition "q" "u" "batch" false) = .error err) ↔
      (∃ uq uid docs pm e,
        Message.DocumentAddition "q" "u" "batch" false =
          .DocumentAddition uq uid docs pm ∧ sampleParse docs = .error e)) ∧
    apply_message sampleStore sampleParseOk (.DocumentAddition "q" "u" "batch" false) =
      .ok (.UpdateResponse (sampleStore.update_multiple_documents "u" "q" [] false)) :=
  ⟨(apply_message_spec sampleStore sampleParse
      (.DocumentAddition "q" "u" "batch" false)).1,
   (apply_message_spec sampleStore sampleParseOk
      (.DocumentAddition "q" "u" "batch" false)).2 "q" "u" "batch" false [] rfl⟩

/-- State used by the C3 counterexample: a single entry at index 1 with
term 1. -/
def c3State : RaftStoreState :=
  ⟨[(1, ⟨1, 1, .Blank⟩)], none, none, none, none, 0⟩

/-- An entry for index 1 with a different term. -/
def c3NewEntry : Entry := ⟨2, 1, .Blank⟩

/-- C3 counterexample: with an entry already stored at index 1 with term 1,
appending an entry at index 1 with term 2 (no prior `delete_logs_from`)
does not fail and does not leave the stored entry unchanged — `put_log`
silently overwrites; no Conflict check exists in the code. -/
theorem append_conflict_cex :
    logsGet c3State.logs 1 = some ⟨1, 1, .Blank⟩ ∧
    (⟨1, 1, .Blank⟩ : Entry).term ≠ c3NewEntry.term ∧
    logsGet (append_entry_to_log c3State c3NewEntry).logs 1 = some c3NewEntry ∧
    logsGet (append_entry_to_log c3State c3NewEntry).logs 1 ≠ logsGet c3State.logs 1 := by
  exact ⟨rfl, by decide, rfl, by decide⟩

/-- C3 amended: appending (via `append_entry_to_log` or `replicate_to_log`)
at an index that already holds an entry with a different term succeeds and
unconditionally overwrites the stored entry; no Conflict error is raised. -/
theorem append_overwrite_spec (s : RaftStoreState) (e old : Entry)
    (_h : logsGet s.logs e.index = some old) (_hterm : old.term ≠ e.term) :
    logsGet (append_entry_to_log s e).logs e.index = some e ∧
    logsGet (replicate_to_log s [e]).logs e.index = some e := by
  constructor
  · rw [append_entry_to_log, put_log_logs, logsGet_logsPut_self]
  · show logsGet (put_log s e.index e).logs e.index = some e
    rw [put_log_logs, logsGet_logsPut_self]

/-- C3 witness for the amended claim at the counterexample input. -/
theorem append_overwrite_spec_witness :
    logsGet (append_entry_to_log c3State c3NewEntry).logs 1 = some c3NewEntry ∧
    logsGet (replicate_to_log c3State [c3NewEntry]).logs 1 = some c3NewEntry :=
  append_overwrite_spec c3State c3NewEntry ⟨1, 1, .Blank⟩ rfl (by decide)

/-- State used by the C4 counterexample: last-applied watermark 5. -/
def c4State : RaftStoreState := ⟨[], none, some 5, none, none, 0⟩

/-- Request used by the C4 counterexample. -/
def c4Request : ClientRequest := ⟨7, .CreateIndex ⟨some "idx"⟩⟩

/-- C4 counterexample: with the stored last-applied watermark 5, applying an
entry at index 3 ≤ 5 is not skipped: the command is dispatched to the store
(its response is returned) and the watermark is overwritten with 3 — the
adapter never reads `last_applied`. -/
theorem apply_no_skip_cex :
    c4State.last_applied = some 5 ∧
    apply_entry_to_state_machine sampleStore sampleParse c4State 3 c4Request =
      .ok ({ c4State with next_serial := 7, last_applied := some 3 },
           .IndexUpdate (.ok ⟨"idx"⟩)) ∧
    ({ c4State with next_serial := 7, last_applied := some 3 }).last_applied ≠
      c4State.last_applied := by
  exact ⟨rfl, rfl, by decide⟩

/-- C4 amended: `apply_entry_to_state_machine(index, request)` applies the
message unconditionally — it performs no check against the stored
last-applied watermark — and overwrites `last_applied` with `index` (and
`next_serial` with the request serial) whenever the message application
succeeds. -/
theorem apply_entry_unconditional (store : Data)
    (parse : String → Except String (List Document)) (s : RaftStoreState)
    (index : Nat) (data : ClientRequest) (r : ClientResponse)
    (h : apply_message store parse data.message = .ok r) :
    apply_entry_to_state_machine store parse s index data =
      .ok ({ s with next_serial := data.serial, last_applied := some index }, r) := by
  simp [apply_entry_to_state_machine, h]

/-- C4 witness for the amended claim at the counterexample input. -/
theorem apply_entry_unconditional_witness :
    apply_entry_to_state_machine sampleStore sampleParse c4State 3 c4Request =
      .ok ({ c4State with next_serial := 7, last_applied := some 3 },
           .IndexUpdate (.ok ⟨"idx"⟩)) :=
  apply_entry_unconditional sampleStore sampleParse c4State 3 c4Request
    (.IndexUpdate (.ok ⟨"idx"⟩)) rfl

/-- C1: for every log state containing an entry at `through`, after
`create_snapshot_and_compact(through)` (the body of `do_log_compaction`)
returns successfully every index `k < through` holds no entry, `through`
holds exactly one synthetic snapshot-pointer entry carrying the term of the
entry previously stored there, every entry above `through` is unchanged,
and the Snapshot Descriptor slot holds the new snapshot's
(id, index = through, term, membership). -/
theorem create_snapshot_and_compact_spec (nid : Nat) (dir : String)
    (s : RaftStoreState) (through : Nat) (old : Entry)
    (h : logsGet s.logs through = some old) :
    ∃ s' snap,
      create_snapshot_and_compact nid dir s through = .ok (s', snap) ∧
      (∀ k, k < through → logsGet s'.logs k = none) ∧
      logsGet s'.logs through = some (Entry.new_snapshot_pointer through old.term
        ("snapshot-" ++ toString s.next_serial)
        (s.membership.getD (MembershipConfig.new_initial nid))) ∧
      s'.logs.countP (fun q => decide (q.1 = through)) = 1 ∧
      (∀ k, through < k → logsGet s'.logs k = logsGet s.logs k) ∧
      s'.snapshot = some snap ∧
      snap = ⟨snapshot_path_from_id dir ("snapshot-" ++ toString s.next_serial),
              "snapshot-" ++ toString s.next_serial, through, old.term,
              s.membership.getD (MembershipConfig.new_initial nid)⟩ := by
  simp only [create_snapshot_and_compact, h, generate_snapshot_id]
  refine ⟨_, _, rfl, ?_, ?_, ?_, ?_, rfl, rfl⟩
  · intro k hk
    have hne : k ≠ through := by omega
    simp only [put_log_logs]
    rw [logsGet_logsPut_ne _ _ _ _ hne, logsGet_logsDeleteToIncl]
    have hle : k ≤ through := by omega
    simp [hle]
  · simp only [put_log_logs]
    rw [logsGet_logsPut_self]
  · simp only [put_log_logs]
    apply countP_logsPut
    rw [List.countP_eq_zero]
    intro a ha
    rw [logsDeleteToIncl, List.mem_filter] at ha
    simp only [decide_eq_true_eq] at ha ⊢
    omega
  · intro k hk
    have hne : k ≠ through := by omega
    simp only [put_log_logs]
    rw [logsGet_logsPut_ne _ _ _ _ hne, logsGet_logsDeleteToIncl]
    have hle : ¬(k ≤ through) := by omega
    simp [hle]

/-- C1 witness: compaction of a concrete three-entry log through index 2. -/
theorem create_snapshot_and_compact_spec_witness :
    ∃ s' snap,
      create_snapshot_and_compact 0 "snapshots" sampleLogState 2 = .ok (s', snap) ∧
      (∀ k, k < 2 → logsGet s'.logs k = none) ∧
      logsGet s'.logs 2 = some (Entry.new_snapshot_pointer 2 1 "snapshot-0" ⟨[0], none⟩) ∧
      s'.logs.countP (fun q => decide (q.1 = 2)) = 1 ∧
      (∀ k, 2 < k → logsGet s'.logs k = logsGet sampleLogState.logs k) ∧
      s'.snapshot = some snap ∧
      snap = ⟨"snapshots/snapshot-0.snap", "snapshot-0", 2, 1, ⟨[0], none⟩⟩ :=
  create_snapshot_and_compact_spec 0 "snapshots" sampleLogState 2 (sampleEntry 2 1) rfl

/-- C2: after `finalize_snapshot_installation(index, term, delete_through,
id, _)`, with `delete_through = Some(d)` every pre-existing entry with index
in `[0, d)` is gone and those at or above `d` are unchanged, with
`delete_through = None` every pre-existing entry is gone; the log contains
the snapshot-pointer entry at `index` with the given term and id, and the
Snapshot Descriptor slot equals (id, index, term) with the membership read
(or initial default) at install time. -/
theorem finalize_snapshot_installation_spec (nid : Nat) (dir : String)
    (s : RaftStoreState) (index term : Nat) (dt : Option Nat) (id : String) :
    (∀ d, dt = some d → ∀ k, k < d → k ≠ index →
       logsGet (finalize_snapshot_installation nid dir s index term dt id).logs k = none) ∧
    (∀ d, dt = some d → ∀ k, d ≤ k → k ≠ index →
       logsGet (finalize_snapshot_installation nid dir s index term dt id).logs k =
         logsGet s.logs k) ∧
    (dt = none → ∀ k, k ≠ index →
       logsGet (finalize_snapshot_installation nid dir s index term dt id).logs k = none) ∧
    logsGet (finalize_snapshot_installation nid dir s index term dt id).logs index =
      some (Entry.new_snapshot_pointer index term id
        (s.membership.getD (MembershipConfig.new_initial nid))) ∧
    (finalize_snapshot_installation nid dir s index term dt id).snapshot =
      some ⟨snapshot_path_from_id dir id, id, index, term,
            s.membership.getD (MembershipConfig.new_initial nid)⟩ := by
  refine ⟨?_, ?_, ?_, ?_, ?_⟩
  · rintro d rfl k hk hne
    simp only [finalize_snapshot_installation, put_log_logs]
    rw [logsGet_logsPut_ne _ _ _ _ hne, logsGet_logsDeleteHalfOpen]
    have hc : 0 ≤ k ∧ k < d := by omega
    simp [hc]
  · rintro d rfl k hk hne
    simp only [finalize_snapshot_installation, put_log_logs]
    rw [logsGet_logsPut_ne _ _ _ _ hne, logsGet_logsDeleteHalfOpen]
    have hc : ¬(0 ≤ k ∧ k < d) := by omega
    rw [if_neg hc]
  · rintro rfl k hne
    simp only [finalize_snapshot_installation, put_log_logs]
    rw [logsGet_logsPut_ne _ _ _ _ hne]
    rfl
  · cases dt with
    | some d =>
      simp only [finalize_snapshot_installation, put_log_logs]
      rw [logsGet_logsPut_self]
    | none =>
      simp only [finalize_snapshot_installation, put_log_logs]
      rw [logsGet_logsPut_self]
  · cases dt <;> rfl

/-- C2 witness: full install (`delete_through = None`) of snapshot "s" at
index 100, term 4, on a node with three log entries. -/
theorem finalize_snapshot_installation_spec_witness :
    logsGet (finalize_snapshot_installation 7 "snapshots" sampleLogState 100 4 none "s").logs 1 = none ∧
    logsGet (finalize_snapshot_installation 7 "snapshots" sampleLogState 100 4 none "s").logs 100 =
      some (Entry.new_snapshot_pointer 100 4 "s" ⟨[7], none⟩) ∧
    (finalize_snapshot_installation 7 "snapshots" sampleLogState 100 4 none "s").snapshot =
      some ⟨"snapshots/s.snap", "s", 100, 4, ⟨[7], none⟩⟩ := by
  have h := finalize_snapshot_installation_spec 7 "snapshots" sampleLogState 100 4 none "s"
  exact ⟨h.2.2.1 rfl 1 (by decide), h.2.2.2.1, h.2.2.2.2⟩

/-- Per-batch helper: a batch with no `ConfigChange` payload leaves the
membership slot unchanged. -/
theorem replicate_to_log_membership_of_no_config (es : List Entry) :
    ∀ s : RaftStoreState, (∀ e' ∈ es, ∀ c, e'.payload ≠ .ConfigChange c) →
      (replicate_to_log s es).membership = s.membership := by
  induction es with
  | nil => intro s _; rfl
  | cons e t ih =>
    intro s hno
    have h1 : ∀ c, e.payload ≠ .ConfigChange c := hno e (by simp)
    have h2 : ∀ e' ∈ t, ∀ c, e'.payload ≠ .ConfigChange c :=
      fun e' he' => hno e' (by simp [he'])
    show (replicate_to_log (put_log s e.index e) t).membership = s.membership
    rw [ih _ h2, put_log_membership]
    cases hp : e.payload with
    | Blank => simp
    | Normal d => simp
    | ConfigChange c => exact absurd hp (h1 c)
    | SnapshotPointer a b => simp

/-- C7: appending a `ConfigChange` entry (via `append_entry_to_log` or
`replicate_to_log`) overwrites the Membership slot with the carried
membership in the same transaction, so `get_membership_config` then returns
it; entries with any other payload leave the slot unchanged. -/
theorem config_change_membership_spec (nid : Nat) (s : RaftStoreState)
    (e : Entry) (cfg : MembershipConfig) (es : List Entry) :
    (e.payload = .ConfigChange cfg →
       (append_entry_to_log s e).membership = some cfg ∧
       get_membership_config nid (append_entry_to_log s e) = cfg ∧
       (replicate_to_log s (es ++ [e])).membership = some cfg ∧
       get_membership_config nid (replicate_to_log s (es ++ [e])) = cfg) ∧
    ((∀ c, e.payload ≠ .ConfigChange c) →
       (append_entry_to_log s e).membership = s.membership) ∧
    ((∀ e' ∈ es, ∀ c, e'.payload ≠ .ConfigChange c) →
       (replicate_to_log s es).membership = s.membership) := by
  refine ⟨?_, ?_, ?_⟩
  · intro hp
    have hm : (append_entry_to_log s e).membership = some cfg := by
      rw [append_entry_to_log, put_log_membership, hp]
    have hr : (replicate_to_log s (es ++ [e])).membership = some cfg := by
      have hfold : (replicate_to_log s (es ++ [e])).membership =
          (put_log (replicate_to_log s es) e.index e).membership := by
        rw [replicate_to_log, replicate_to_log, List.foldl_append]
        rfl
      rw [hfold, put_log_membership, hp]
    exact ⟨hm, by simp [get_membership_config, hm], hr,
           by simp [get_membership_config, hr]⟩
  · intro hno
    rw [append_entry_to_log, put_log_membership]
    cases hp : e.payload with
    | Blank => simp
    | Normal d => simp
    | ConfigChange c => exact absurd hp (hno c)
    | SnapshotPointer a b => simp
  · exact fun hno => replicate_to_log_membership_of_no_config es s hno

/-- A concrete `ConfigChange` entry for the C7 witness. -/
def c7Entry : Entry := ⟨4, 5, .ConfigChange ⟨[1, 2], none⟩⟩

/-- C7 witness: concrete appends with and without a `ConfigChange`
payload. -/
theorem config_change_membership_spec_witness :
    (append_entry_to_log sampleLogState c7Entry).membership = some ⟨[1, 2], none⟩ ∧
    get_membership_config 0 (append_entry_to_log sampleLogState c7Entry) = ⟨[1, 2], none⟩ ∧
    (replicate_to_log sampleLogState ([sampleEntry 4 2] ++ [c7Entry])).membership =
      some ⟨[1, 2], none⟩ ∧
    get_membership_config 0 (replicate_to_log sampleLogState ([sampleEntry 4 2] ++ [c7Entry])) =
      ⟨[1, 2], none⟩ ∧
    (append_entry_to_log sampleLogState (sampleEntry 4 2)).membership =
      sampleLogState.membership ∧
    (replicate_to_log sampleLogState [sampleEntry 4 2]).membership =
      sampleLogState.membership := by
  obtain ⟨h1, -, -⟩ :=
    config_change_membership_spec 0 sampleLogState c7Entry ⟨[1, 2], none⟩ [sampleEntry 4 2]
  obtain ⟨a, b, c, d⟩ := h1 rfl
  obtain ⟨-, h2, h3⟩ :=
    config_change_membership_spec 0 sampleLogState (sampleEntry 4 2) ⟨[1, 2], none⟩
      [sampleEntry 4 2]
  refine ⟨a, b, c, d, h2 ?_, h3 ?_⟩
  · intro c' hc'
    simp [sampleEntry] at hc'
  · intro e' he' c' hc'
    simp at he'
    subst he'
    simp [sampleEntry] at hc'

/-- C8: with no persisted hard state, `get_initial_state` returns the
initial state (all-zero indices, hard state {term 0, no vote}, single-node
initial membership) and persists that hard state; with a persisted hard
state it returns it with `last_log_(index|term)` from the log's final entry
(0,0 if empty) and the stored last-applied watermark (0 if unset). -/
theorem get_initial_state_spec (nid : Nat) (s : RaftStoreState) :
    (s.hard_state = none →
       get_initial_state nid s =
         (⟨0, 0, 0, ⟨0, none⟩, MembershipConfig.new_initial nid⟩,
          { s with hard_state := some ⟨0, none⟩ })) ∧
    (∀ hs, s.hard_state = some hs →
       get_initial_state nid s =
         (⟨(match logsLast s.logs with
             | some p => p.2.index
             | none => 0),
           (match logsLast s.logs with
             | some p => p.2.term
             | none => 0),
           s.last_applied.getD 0, hs,
           s.membership.getD (MembershipConfig.new_initial nid)⟩, s)) := by
  constructor
  · intro h
    simp [get_initial_state, h, InitialState.new_initial, get_membership_config]
  · intro hs h
    cases hl : logsLast s.logs with
    | none => simp [get_initial_state, h, hl, get_membership_config]
    | some p =>
      obtain ⟨a, entry⟩ := p
      simp [get_initial_state, h, hl, get_membership_config]

/-- A concrete state with a persisted hard state for the C8 witness. -/
def c8EmptyState : RaftStoreState := ⟨[], none, none, none, none, 0⟩

/-- A concrete state with a persisted hard state for the C8 witness. -/
def c8HsState : RaftStoreState :=
  ⟨[(1, sampleEntry 1 1), (3, sampleEntry 3 2)], some ⟨4, some 1⟩, some 5,
   none, none, 0⟩

/-- C8 witness: the empty-store bootstrap and a store with hard state,
log, and watermark present. -/
theorem get_initial_state_spec_witness :
    get_initial_state 7 c8EmptyState =
      (⟨0, 0, 0, ⟨0, none⟩, MembershipConfig.new_initial 7⟩,
       { c8EmptyState with hard_state := some ⟨0, none⟩ }) ∧
    get_initial_state 7 c8HsState =
      (⟨3, 2, 5, ⟨4, some 1⟩, MembershipConfig.new_initial 7⟩, c8HsState) :=
  ⟨(get_initial_state_spec 7 c8EmptyState).1 rfl,
   (get_initial_state_spec 7 c8HsState).2 ⟨4, some 1⟩ rfl⟩

/-- The in-process state of a freshly constructed store for the C9
counterexample. -/
def c9FreshState : RaftStoreState :=
  ⟨[], none, none, none, none, RaftStore.new_next_serial⟩

/-- The request applied before the simulated restart in the C9
counterexample. -/
def c9Request : ClientRequest := ⟨1, .CreateIndex ⟨some "idx"⟩⟩

/-- C9 counterexample: applying a request with serial 1 sets the observed
serial to 1, yet `RaftStore::new` initializes the counter to 0, which is
not ≥ 1; the first id issued by a fresh (restarted) store is "snapshot-0",
the same id a fresh pre-restart store issues — ids can collide across a
restart. -/
theorem snapshot_id_restart_cex :
    apply_entry_to_state_machine sampleStore sampleParse c9FreshState 1 c9Request =
      .ok ({ c9FreshState with next_serial := 1, last_applied := some 1 },
           .IndexUpdate (.ok ⟨"idx"⟩)) ∧
    ({ c9FreshState with next_serial := 1, last_applied := some 1 }).next_serial = 1 ∧
    RaftStore.new_next_serial = 0 ∧
    ¬(1 ≤ RaftStore.new_next_serial) ∧
    (generate_snapshot_id c9FreshState).1 = "snapshot-0" := by
  exact ⟨rfl, rfl, rfl, by decide, rfl⟩

/-- C9 amended: snapshot ids are produced from the process-wide counter as
`snapshot-<n>` (incrementing it), but `RaftStore::new` initializes the
counter to 0 regardless of serials observed before a restart; at apply time
the counter is overwritten with the applied request's serial, so ids issued
after a restart can collide with ids issued before it. -/
theorem generate_snapshot_id_spec (s : RaftStoreState) (store : Data)
    (parse : String → Except String (List Document)) (i : Nat)
    (data : ClientRequest) (s' : RaftStoreState) (r : ClientResponse)
    (h : apply_entry_to_state_machine store parse s i data = .ok (s', r)) :
    generate_snapshot_id s =
      ("snapshot-" ++ toString s.next_serial, { s with next_serial := s.next_serial + 1 }) ∧
    RaftStore.new_next_serial = 0 ∧
    s'.next_serial = data.serial := by
  refine ⟨rfl, rfl, ?_⟩
  cases hm : apply_message store parse data.message with
  | error e => simp [apply_entry_to_state_machine, hm] at h
  | ok resp =>
    simp only [apply_entry_to_state_machine, hm, Except.ok.injEq, Prod.mk.injEq] at h
    obtain ⟨h1, h2⟩ := h
    subst h1
    rfl

/-- C9 witness for the amended claim at the counterexample input. -/
theorem generate_snapshot_id_spec_witness :
    generate_snapshot_id c9FreshState =
      ("snapshot-" ++ toString c9FreshState.next_serial,
       { c9FreshState with next_serial := c9FreshState.next_serial + 1 }) ∧
    RaftStore.new_next_serial = 0 ∧
    ({ c9FreshState with next_serial := 1, last_applied := some 1 }).next_serial =
      c9Request.serial :=
  generate_snapshot_id_spec c9FreshState sampleStore sampleParse 1 c9Request
    { c9FreshState with next_serial := 1, last_applied := some 1 }
    (.IndexUpdate (.ok ⟨"idx"⟩)) rfl

end MeiliRaft
